import Mathlib

/-!
Shallow embedding of the `trickster` library (src/src/process.rs,
src/src/memory_region.rs) and proofs about its behaviour.

Strings are modelled as `List Char`; machine integers (`usize`, `u8`,
byte values) as `Nat`.  Fallible operations return `Except ProcessError`.
The OS environment (the `process_vm_readv` / `process_vm_writev`
syscalls, the `/proc` directory entries and the lines of
`/proc/[pid]/maps`) is passed in explicitly as data.
-/

set_option maxHeartbeats 1000000

namespace Trickster

/-- Each constructor mirrors one distinct failure site in the source:
either one `anyhow!` message (with its dynamic format arguments as the
constructor's payload) or a propagated `io::Error` (the `?` on
`fs::read_to_string`). -/
inductive ProcessError where
  /-- Message "Could not convert file_name() of process directory to String." -/
  | fileNameConversion : ProcessError
  /-- Message "Could not get process id of \x7b\x7d." (final error of `Process::new`) -/
  | processNotFound (name : List Char) : ProcessError
  /-- An `io::Error` propagated by the `?` operator on `fs::read_to_string`. -/
  | ioPropagated (e : List Char) : ProcessError
  /-- Message "Could not read memory at \x7b:#x\x7d (\x7b\x7d)." -/
  | readFailed (address : Nat) (e : List Char) : ProcessError
  /-- Message "Could not read memory. Partial read occurred." -/
  | readShort : ProcessError
  /-- Message "Could not write memory at \x7b:#x\x7d (\x7b\x7d)." -/
  | writeFailed (address : Nat) (e : List Char) : ProcessError
  /-- Message "Could not write memory. Partial write occurred." -/
  | writeShort : ProcessError
  /-- Message "Memory regions not mapped." -/
  | regionsNotMapped : ProcessError
  /-- Message "Could not get region with specific permissions." -/
  | permissionMismatch : ProcessError
  /-- Message "Could not find \x7b\x7d." -/
  | regionNotFound (name : List Char) : ProcessError
  /-- Message "Could not get \x7b:x\x7d's region." -/
  | addressRegionNotFound (address : Nat) : ProcessError
deriving DecidableEq, Repr

/-- Structure `RegionPermissions` from src/src/memory_region.rs.  `derive(Eq, PartialEq)`
in the source means structural value equality, mirrored by `DecidableEq`. -/
structure RegionPermissions where
  readable : Bool
  writeable : Bool
  executable : Bool
  shared : Bool
deriving DecidableEq, Repr

/-- Structure `MemoryRegion` from src/src/memory_region.rs.  The Rust field `end` is a
Lean keyword and is rendered `end_`. -/
structure MemoryRegion where
  start : Nat
  end_ : Nat
  permissions : RegionPermissions
  offset : Nat
  dev_major : Nat
  dev_minor : Nat
  inode : Nat
  path : Option (List Char)
deriving DecidableEq, Repr

/-- Structure `Process` from src/src/process.rs: pid, the stored name, and the
optional parsed region list. -/
structure Process where
  pid : Nat
  name : List Char
  memory_regions : Option (List MemoryRegion)
deriving DecidableEq, Repr

/-! ## Remote memory transfers (`read_memory` / `write_memory`) -/

/-- Type `nix::sys::uio::RemoteIoVec`: the remote-side address/length descriptor
handed to the transfer syscall. -/
structure RemoteIoVec where
  base : Nat
  len : Nat
deriving DecidableEq, Repr

/-- The remote descriptor built by `Process::read_memory`
(src/src/process.rs lines 159-162): `base = address`,
`len = bytes_requested = mem::size_of::<T>()`. -/
def read_remote_iovec (address bytes_requested : Nat) : RemoteIoVec :=
  { base := address, len := bytes_requested }

/-- The remote descriptor built by `Process::write_memory`
(src/src/process.rs lines 239-242): `base = address`,
`len = bytes_requested = mem::size_of::<T>()` — not the buffer's length. -/
def write_remote_iovec (address bytes_requested : Nat) : RemoteIoVec :=
  { base := address, len := bytes_requested }

/-- Outcome of the `process_vm_readv` syscall, supplied by the environment:
on success, the list of bytes the kernel copied into the front of the local
buffer (its length is the syscall's return value `bytes_read`). -/
def ReadvResult : Type := Except (List Char) (List Nat)

/-- Function `Process::read_memory::<T>` (src/src/process.rs lines 155-181) with
`size_of::<T>()` passed as `bytes_requested` and the syscall outcome passed
as data.  The local buffer starts as `vec![0u8; bytes_requested]`; a
successful syscall overwrites its first `bytes_read` bytes; the function
rejects any `bytes_read ≠ bytes_requested`. -/
def read_memory (bytes_requested address : Nat) (os : Except (List Char) (List Nat)) :
    Except ProcessError (List Nat) :=
  match os with
  | .error e => .error (.readFailed address e)
  | .ok os_bytes =>
    let buffer := os_bytes.take bytes_requested ++
      List.replicate (bytes_requested - os_bytes.length) 0
    let bytes_read := os_bytes.length
    if bytes_read ≠ bytes_requested then .error .readShort
    else .ok buffer

/-- Function `Process::write_memory::<T>` (src/src/process.rs lines 236-261) with
`size_of::<T>()` passed as `bytes_requested`.  The syscall is a function of
the remote descriptor and the local buffer, returning `bytes_written` or an
error; the function rejects any `bytes_written ≠ bytes_requested`. -/
def write_memory (bytes_requested address : Nat) (buffer : List Nat)
    (os : RemoteIoVec → List Nat → Except (List Char) Nat) :
    Except ProcessError Unit :=
  match os (write_remote_iovec address bytes_requested) buffer with
  | .error e => .error (.writeFailed address e)
  | .ok bytes_written =>
    if bytes_written ≠ bytes_requested then .error .writeShort
    else .ok ()

/-! ## String helpers mirroring the Rust std functions used by the source -/

/-- Rust `str::trim_end`: remove trailing whitespace. -/
def trim_end (s : List Char) : List Char :=
  (s.reverse.dropWhile Char.isWhitespace).reverse

/-- Rust `char::is_numeric` as it applies to `/proc` entry names, which are
ASCII: true exactly on the decimal digits. -/
def char_is_numeric (c : Char) : Bool := c.isDigit

/-- Value of a decimal digit character, or `none`. -/
def decDigit (c : Char) : Option Nat :=
  if c.isDigit then some (c.toNat - '0'.toNat) else none

/-- Value of a hexadecimal digit character, or `none`. -/
def hexDigit (c : Char) : Option Nat :=
  if c.isDigit then some (c.toNat - '0'.toNat)
  else if 97 ≤ c.toNat ∧ c.toNat ≤ 102 then some (c.toNat - 97 + 10)
  else if 65 ≤ c.toNat ∧ c.toNat ≤ 70 then some (c.toNat - 65 + 10)
  else none

/-- Positional-notation parse of a digit string with the given digit reader
and radix; `none` on the empty string or any non-digit character.  Models
Rust's `FromStr` for unsigned integers and `from_str_radix`. -/
def parse_digits (digit : Char → Option Nat) (radix : Nat) (s : List Char) : Option Nat :=
  if s.isEmpty then none
  else
    s.foldl
      (fun acc c =>
        match acc, digit c with
        | some n, some d => some (radix * n + d)
        | _, _ => none)
      (some 0)

/-- Rust `usize::from_str_radix(s, 16)` as used for the `[hex usize]`
conversions of the scan. -/
def parse_hex_usize (s : List Char) : Option Nat :=
  parse_digits hexDigit 16 s

/-- Rust `u8::from_str` (decimal), as used by the scan's plain `u8`
conversions for the dev fields: fails on any non-decimal digit and on
values above 255. -/
def parse_u8 (s : List Char) : Option Nat :=
  match parse_digits decDigit 10 s with
  | some n => if n ≤ 255 then some n else none
  | none => none

/-- Rust `usize::from_str` (decimal), as used for the inode field. -/
def parse_usize (s : List Char) : Option Nat :=
  parse_digits decDigit 10 s

/-! ## The `/proc/[pid]/maps` line scan (`scan_fmt_some!`) -/

/-- The eight per-field results of
`scan_fmt_some!(line, "\x7bx\x7d-\x7bx\x7d \x7b\x7d \x7bx\x7d \x7b\x7d:\x7b\x7d \x7b\x7d \x7b\x7d", ...)`:
each field is `Some` when it was structurally matched and converted, `None`
otherwise. -/
structure ScanFields where
  start : Option Nat := none
  end_ : Option Nat := none
  perms : Option (List Char) := none
  offset : Option Nat := none
  dev_major : Option Nat := none
  dev_minor : Option Nat := none
  inode : Option Nat := none
  path : Option (List Char) := none
deriving DecidableEq, Repr

/-- Capture a nonempty maximal run of characters satisfying `p` (one
scan-format placeholder), or fail structurally. -/
def capture (p : Char → Bool) (s : List Char) : Option (List Char × List Char) :=
  let t := s.takeWhile p
  if t.isEmpty then none else some (t, s.dropWhile p)

/-- Expect the literal character `c`. -/
def lit (c : Char) (s : List Char) : Option (List Char) :=
  match s with
  | a :: rest => if a = c then some rest else none
  | [] => none

/-- Skip (possibly empty) whitespace, for literal whitespace in the scan
format. -/
def skip_ws (s : List Char) : List Char := s.dropWhile Char.isWhitespace

/-- True on a hexadecimal digit, the character class of the `x` placeholder. -/
def is_hex_digit (c : Char) : Bool := (hexDigit c).isSome

/-- Character class of an unconstrained placeholder: a word character, i.e.
not whitespace. -/
def is_word_char (c : Char) : Bool := !c.isWhitespace

/-- Character class of an unconstrained placeholder that is followed by a
`:` literal in the format: a word character other than `:`. -/
def is_word_char_no_colon (c : Char) : Bool := !c.isWhitespace && c ≠ ':'

/-- Structural phase of the scan: match the format
`hex '-' hex ws word ws hex ws word ':' word ws word ws word`
left to right against the line, returning the raw captures in order; the
first structural mismatch stops the scan, leaving later captures absent. -/
def scan_captures (line : List Char) : List (List Char) :=
  match capture is_hex_digit line with
  | none => []
  | some (c1, r1) =>
  match lit '-' r1 with
  | none => [c1]
  | some r2 =>
  match capture is_hex_digit r2 with
  | none => [c1]
  | some (c2, r3) =>
  match capture is_word_char (skip_ws r3) with
  | none => [c1, c2]
  | some (c3, r4) =>
  match capture is_hex_digit (skip_ws r4) with
  | none => [c1, c2, c3]
  | some (c4, r5) =>
  match capture is_word_char_no_colon (skip_ws r5) with
  | none => [c1, c2, c3, c4]
  | some (c5, r6) =>
  match lit ':' r6 with
  | none => [c1, c2, c3, c4]
  | some r7 =>
  match capture is_word_char r7 with
  | none => [c1, c2, c3, c4, c5]
  | some (c6, r8) =>
  match capture is_word_char (skip_ws r8) with
  | none => [c1, c2, c3, c4, c5, c6]
  | some (c7, r9) =>
  match capture is_word_char (skip_ws r9) with
  | none => [c1, c2, c3, c4, c5, c6, c7]
  | some (c8, _) => [c1, c2, c3, c4, c5, c6, c7, c8]

/-- The scan of one maps line (src/src/process.rs lines 284-288): raw
captures converted with the per-field types of the source —
`[hex usize]` for start, end and offset, `String` for the permission field
and the path, plain `u8` (decimal) for `dev_major` and `dev_minor`, plain
`usize` (decimal) for the inode. -/
def scan_maps_line (line : List Char) : ScanFields :=
  let cs := scan_captures line
  { start := (cs.get? 0).bind parse_hex_usize
    end_ := (cs.get? 1).bind parse_hex_usize
    perms := cs.get? 2
    offset := (cs.get? 3).bind parse_hex_usize
    dev_major := (cs.get? 4).bind parse_u8
    dev_minor := (cs.get? 5).bind parse_u8
    inode := (cs.get? 6).bind parse_usize
    path := cs.get? 7 }

/-- The permission-character loop of `parse_maps` (src/src/process.rs lines
290-298): every character of the permission string is matched by value —
`'r'`, `'w'`, `'x'`, `'s'` set the corresponding flag, anything else is
skipped. -/
def parse_permissions_loop (permissions : RegionPermissions) :
    List Char → RegionPermissions
  | [] => permissions
  | c :: rest =>
    parse_permissions_loop
      (if c = 'r' then { permissions with readable := true }
       else if c = 'w' then { permissions with writeable := true }
       else if c = 'x' then { permissions with executable := true }
       else if c = 's' then { permissions with shared := true }
       else permissions)
      rest

/-- Permissions parsed from a permission string, starting from the all-false
initializer of src/src/process.rs lines 277-282. -/
def parse_permissions (s : List Char) : RegionPermissions :=
  parse_permissions_loop ⟨false, false, false, false⟩ s

/-- Modelled from the spec: the positional permission parser the spec
describes — four fixed positional roles `r`, `w`, `x`, `s`, where a
character other than the expected letter in its position leaves the
corresponding boolean false.  Stated only to compare with the source's
`parse_permissions`. -/
def parse_permissions_positional (s : List Char) : RegionPermissions :=
  { readable := decide (s.get? 0 = some 'r')
    writeable := decide (s.get? 1 = some 'w')
    executable := decide (s.get? 2 = some 'x')
    shared := decide (s.get? 3 = some 's') }

/-- Result of running `parse_maps` over the lines of the maps file:
either the full region list, or the abort of the process by a panicking
`Option::unwrap` on a field the scan did not produce. -/
inductive ParseOutcome where
  | ok (regions : List MemoryRegion) : ParseOutcome
  | panicked : ParseOutcome
deriving DecidableEq, Repr

/-- The `unwrap()` calls of one `parse_maps` loop iteration
(src/src/process.rs lines 290-309): `none` models the panic of
`Option::unwrap` on a field the scan could not produce; otherwise the
`MemoryRegion` pushed for this line.  `path` is kept as the `Option` the
scan produced (it is never unwrapped). -/
def build_region (f : ScanFields) : Option MemoryRegion :=
  match f.perms, f.start, f.end_, f.offset, f.dev_major, f.dev_minor, f.inode with
  | some ps, some s, some e, some o, some dM, some dm, some i =>
    some { start := s, end_ := e, permissions := parse_permissions ps,
           offset := o, dev_major := dM, dev_minor := dm, inode := i,
           path := f.path }
  | _, _, _, _, _, _, _ => none

/-- The `parse_maps` line loop over the maps file's lines. -/
def parse_maps_lines : List (List Char) → ParseOutcome
  | [] => .ok []
  | line :: rest =>
    match build_region (scan_maps_line line) with
    | none => .panicked
    | some r =>
      match parse_maps_lines rest with
      | .ok regions => .ok (r :: regions)
      | .panicked => .panicked

/-- Effect of `Process::parse_maps` on `self.memory_regions`: the field is
assigned only after the whole loop has succeeded (src/src/process.rs line
315), so an aborted parse leaves the previous value untouched. -/
def parse_maps_update (prev : Option (List MemoryRegion))
    (lines : List (List Char)) : Option (List MemoryRegion) :=
  match parse_maps_lines lines with
  | .ok regions => some regions
  | .panicked => prev

/-! ## Region queries -/

/-- The sentinel substituted for an absent path
(src/src/process.rs lines 367 and 374). -/
def anonymous_region : List Char := "[anonymous_region]".data

/-- Rust `str::rfind(char)`: index of the last occurrence. -/
def rfind : List Char → Char → Option Nat
  | [], _ => none
  | a :: rest, c =>
    match rfind rest c with
    | some i => some (i + 1)
    | none => if a = c then some 0 else none

/-- The basename computation of `region_find_first_by_name`
(src/src/process.rs lines 364-375): `index_to_split` is
`rfind('/').unwrap_or(0)`, and `split_off` keeps the suffix from
`index_to_split + (if index_to_split > 0 then 1 else 0)`. -/
def region_basename (path : Option (List Char)) : List Char :=
  let p := path.getD anonymous_region
  let index_to_split := (rfind p '/').getD 0
  p.drop (index_to_split + if 0 < index_to_split then 1 else 0)

/-- Function `Process::get_memory_regions` (src/src/process.rs lines 338-343). -/
def get_memory_regions (memory_regions : Option (List MemoryRegion)) :
    Except ProcessError (List MemoryRegion) :=
  match memory_regions with
  | some regions => .ok regions
  | none => .error .regionsNotMapped

/-- The region loop of `region_find_first_by_name`
(src/src/process.rs lines 363-390). -/
def region_find_first_loop (region_name : List Char)
    (permissions_eq : Option RegionPermissions) :
    List MemoryRegion → Except ProcessError MemoryRegion
  | [] => .error (.regionNotFound region_name)
  | region :: rest =>
    if region_basename region.path = region_name then
      match permissions_eq with
      | some permissions =>
        if permissions = region.permissions then .ok region
        else .error .permissionMismatch
      | none => .ok region
    else region_find_first_loop region_name permissions_eq rest

/-- Function `Process::region_find_first_by_name` (src/src/process.rs lines 357-391). -/
def region_find_first_by_name (memory_regions : Option (List MemoryRegion))
    (region_name : List Char) (permissions_eq : Option RegionPermissions) :
    Except ProcessError MemoryRegion :=
  match get_memory_regions memory_regions with
  | .error e => .error e
  | .ok regions => region_find_first_loop region_name permissions_eq regions

/-- The region loop of `get_address_region`
(src/src/process.rs lines 404-408, falling through to line 412). -/
def get_address_region_loop (address : Nat) :
    List MemoryRegion → Except ProcessError MemoryRegion
  | [] => .error (.addressRegionNotFound address)
  | region :: rest =>
    if address ≥ region.start ∧ address ≤ region.end_ then .ok region
    else get_address_region_loop address rest

/-- Function `Process::get_address_region` (src/src/process.rs lines 401-413). -/
def get_address_region (memory_regions : Option (List MemoryRegion))
    (address : Nat) : Except ProcessError MemoryRegion :=
  match memory_regions with
  | some regions => get_address_region_loop address regions
  | none => .error .regionsNotMapped

/-! ## Process lookup (`Process::new`) -/

/-- One successfully yielded `/proc` directory entry: the entry's file name
(`into_string` may fail on non-UTF-8, modelled as `Except Unit`) and the
outcome of `fs::read_to_string` on its `comm` file. -/
structure ProcEntry where
  file_name : Except Unit (List Char)
  comm : Except (List Char) (List Char)
deriving Repr

/-- Function `Process::new` (src/src/process.rs lines 65-95) over the `/proc`
directory listing.  `none` entries are the `ReadDir` items that were `Err`
and are dropped by `filter_map(|process| process.ok())`; for the rest the
body runs in order: file-name conversion failure is fatal, non-numeric
names `continue`, a `comm` read failure is propagated by `?` (fatal), and
the first entry whose trimmed `comm` equals `process_name` is returned with
the raw, untrimmed `comm` contents stored as `name`. -/
def process_new : List (Option ProcEntry) → List Char →
    Except ProcessError Process
  | [], process_name => .error (.processNotFound process_name)
  | none :: rest, process_name => process_new rest process_name
  | some entry :: rest, process_name =>
    match entry.file_name with
    | .error _ => .error .fileNameConversion
    | .ok filename_string =>
      if filename_string.all char_is_numeric then
        match entry.comm with
        | .error e => .error (.ioPropagated e)
        | .ok true_name =>
          if trim_end true_name = process_name then
            .ok { pid := (parse_digits decDigit 10 filename_string).getD 0
                  name := true_name
                  memory_regions := none }
          else process_new rest process_name
      else process_new rest process_name

/-- Function `Process::get_pid` (src/src/process.rs lines 321-323). -/
def get_pid (p : Process) : Nat := p.pid

/-- Function `Process::get_name` (src/src/process.rs lines 326-328): returns the
stored name unchanged. -/
def get_name (p : Process) : List Char := p.name

/-! ## Theorems -/

/-- C1: for every `read_memory::<T>`/`write_memory::<T>` call whose transfer
syscall succeeds, the call succeeds exactly when the reported byte count
equals the requested size (`size_of::<T>()`); a differing count yields the
partial-transfer error, and on success the returned buffer is exactly the
transferred bytes — never a partially-filled zero-padded buffer. -/
theorem transfer_requires_exact_count (n address m : Nat)
    (os_bytes buffer : List Nat)
    (os : RemoteIoVec → List Nat → Except (List Char) Nat)
    (hos : os (write_remote_iovec address n) buffer = .ok m) :
    read_memory n address (.ok os_bytes) =
      (if os_bytes.length = n then .ok os_bytes else .error .readShort) ∧
    write_memory n address buffer os =
      (if m = n then .ok () else .error .writeShort) := by
  constructor
  · unfold read_memory
    by_cases h : os_bytes.length = n
    · subst h
      simp
    · simp [h]
  · unfold write_memory
    rw [hos]
    by_cases h : m = n
    · simp [h]
    · simp [h]

/-- Witness for C1: reading 4 bytes when the syscall moved only 2 is the
partial-read error, and a write of requested size 4 reported as 2 bytes
written is the partial-write error. -/
theorem transfer_requires_exact_count_witness :
    read_memory 4 0 (.ok [1, 2]) = .error .readShort ∧
    write_memory 4 0 [1, 2] (fun _ _ => .ok 2) = .error .writeShort := by
  have h := transfer_requires_exact_count 4 0 2 [1, 2] [1, 2]
    (fun _ _ => .ok 2) rfl
  simpa using h

/-- C2 counterexample: for `write_memory::<i32>` (`size_of::<i32>() = 4`)
called with a 2-byte buffer, the remote length handed to the syscall is 4,
not the buffer's length 2, and a syscall reporting 2 bytes written (the
buffer's length) is rejected as a partial write — so the requested transfer
size is not `buffer.len()`. -/
theorem write_size_not_buffer_length :
    (write_remote_iovec 0 4).len = 4 ∧
    ([0, 0] : List Nat).length = 2 ∧
    write_memory 4 0 [0, 0] (fun _ _ => .ok 2) = .error .writeShort := by
  refine ⟨rfl, rfl, rfl⟩

/-- C2 amended: the requested transfer size of `write_memory::<T>` — both
the remote length passed to the transfer primitive and the value the
exact-count verification compares against — equals `size_of::<T>()`,
independent of the length of `buffer`; it equals `buffer.len()` only when
the caller supplies a buffer of exactly `size_of::<T>()` bytes. -/
theorem write_size_is_type_size (size_of_T address m : Nat)
    (buffer : List Nat) :
    (write_remote_iovec address size_of_T).len = size_of_T ∧
    write_memory size_of_T address buffer (fun _ _ => .ok m) =
      (if m = size_of_T then .ok () else .error .writeShort) := by
  constructor
  · rfl
  · unfold write_memory
    by_cases h : m = size_of_T
    · simp [h]
    · simp [h]

/-! ### Fixture regions used by concrete instantiations -/

/-- Read/execute, private permissions (`r-xp`). -/
def rxp : RegionPermissions := ⟨true, false, true, false⟩

/-- Read/write, private permissions (`rw-p`). -/
def rwp : RegionPermissions := ⟨true, true, false, false⟩

/-- An `r-xp` region backed by `/usr/lib/libc.so`. -/
def libc_text : MemoryRegion :=
  ⟨0x7000, 0x7fff, rxp, 0, 8, 1, 5, some "/usr/lib/libc.so".data⟩

/-- An `rw-p` region backed by `/usr/lib/libc.so`, placed after
`libc_text`. -/
def libc_data : MemoryRegion :=
  ⟨0x8000, 0x8fff, rwp, 0x1000, 8, 1, 5, some "/usr/lib/libc.so".data⟩

/-- Skipping a block of regions none of whose basenames match the queried
name leaves the `region_find_first_by_name` loop unchanged. -/
theorem region_find_first_loop_skip (name : List Char)
    (pe : Option RegionPermissions) (pre rest : List MemoryRegion)
    (hpre : ∀ r ∈ pre, region_basename r.path ≠ name) :
    region_find_first_loop name pe (pre ++ rest) =
      region_find_first_loop name pe rest := by
  induction pre with
  | nil => rfl
  | cons a pre ih =>
    have ha : region_basename a.path ≠ name := hpre a (List.mem_cons_self a pre)
    simp only [List.cons_append, region_find_first_loop, if_neg ha]
    exact ih fun r hr => hpre r (List.mem_cons_of_mem a hr)

/-- C3: if the first region whose basename equals the queried name has
permissions structurally different from the supplied filter, the search
fails with the permission-mismatch error without scanning further — for
every continuation `post`, even one holding a region that would satisfy the
filter; with no filter, that first name-match is returned. -/
theorem find_first_by_name_stops_at_first_match
    (pre post : List MemoryRegion) (r1 : MemoryRegion)
    (name : List Char) (p : RegionPermissions)
    (hpre : ∀ r ∈ pre, region_basename r.path ≠ name)
    (h1 : region_basename r1.path = name)
    (hp : p ≠ r1.permissions) :
    region_find_first_by_name (some (pre ++ r1 :: post)) name (some p) =
      .error .permissionMismatch ∧
    region_find_first_by_name (some (pre ++ r1 :: post)) name none =
      .ok r1 := by
  have hs : ∀ pe, region_find_first_loop name pe (pre ++ r1 :: post) =
      region_find_first_loop name pe (r1 :: post) :=
    fun pe => region_find_first_loop_skip name pe pre (r1 :: post) hpre
  constructor
  · show region_find_first_loop name (some p) (pre ++ r1 :: post) =
      .error .permissionMismatch
    rw [hs]
    simp only [region_find_first_loop, if_pos h1]
    simp [hp]
  · show region_find_first_loop name none (pre ++ r1 :: post) = .ok r1
    rw [hs]
    simp only [region_find_first_loop, if_pos h1]

/-- Witness for C3: two regions named `libc.so`, the first `r-xp`, the
second `rw-p`; filtering for `rw-p` fails with the permission mismatch even
though the second region satisfies the filter, and the unfiltered query
returns the first. -/
theorem find_first_by_name_stops_witness :
    region_find_first_by_name (some [libc_text, libc_data])
      "libc.so".data (some rwp) = .error .permissionMismatch ∧
    region_find_first_by_name (some [libc_text, libc_data])
      "libc.so".data none = .ok libc_text := by
  have h := find_first_by_name_stops_at_first_match [] [libc_data] libc_text
    "libc.so".data rwp (by intro r hr; cases hr) (by decide) (by decide)
  simpa using h

/-- C4: a maps line whose start field is not parsable makes the scan leave
every field empty, so `parse_maps` aborts the whole parse via a panicking
`Option::unwrap` — no region list is produced and the previously stored
region sequence (or its absence) is left unchanged.  The claim instead
predicts an inspectable parse error returned to the caller. -/
theorem parse_maps_malformed_line_panics :
    parse_maps_lines
      ["xyz-08049000 r-xp 00000000 03:01 64593 /bin/cat\n".data] =
      .panicked ∧
    parse_maps_update (some [libc_text])
      ["xyz-08049000 r-xp 00000000 03:01 64593 /bin/cat\n".data] =
      some [libc_text] ∧
    parse_maps_update none
      ["xyz-08049000 r-xp 00000000 03:01 64593 /bin/cat\n".data] =
      none := by
  refine ⟨rfl, rfl, rfl⟩

/-- Modelled from the spec: a subset of `r`, `w`, `x`, `s` rendered in fixed
order with `-` for absent letters. -/
def render_permissions (r w x s : Bool) : List Char :=
  [if r then 'r' else '-', if w then 'w' else '-',
   if x then 'x' else '-', if s then 's' else '-']

/-- The permission loop sets each flag exactly when its letter occurs
anywhere in the remaining characters, on top of the accumulator. -/
theorem parse_permissions_loop_eq (p : RegionPermissions) (s : List Char) :
    parse_permissions_loop p s =
      { readable := p.readable || decide ('r' ∈ s)
        writeable := p.writeable || decide ('w' ∈ s)
        executable := p.executable || decide ('x' ∈ s)
        shared := p.shared || decide ('s' ∈ s) } := by
  induction s generalizing p with
  | nil =>
    cases p
    simp [parse_permissions_loop]
  | cons c rest ih =>
    rw [parse_permissions_loop, ih]
    cases p with
    | mk pr pw px ps =>
      by_cases h1 : c = 'r'
      · subst h1; simp [List.mem_cons, Bool.or_assoc, Bool.or_left_comm]
      · by_cases h2 : c = 'w'
        · subst h2; simp [List.mem_cons, Bool.or_assoc, Bool.or_left_comm]
        · by_cases h3 : c = 'x'
          · subst h3; simp [List.mem_cons, Bool.or_assoc, Bool.or_left_comm]
          · by_cases h4 : c = 's'
            · subst h4; simp [List.mem_cons, Bool.or_assoc, Bool.or_left_comm]
            · simp [h1, h2, h3, h4, List.mem_cons,
                Ne.symm h1, Ne.symm h2, Ne.symm h3, Ne.symm h4]

/-- C5 counterexample: the permission field is not parsed in fixed
positional roles.  On `"w---"` position 1 holds `'-'`, so positional
parsing leaves `writeable` false, but the source's loop matches the `'w'`
at position 0 by value and sets `writeable` true. -/
theorem permissions_not_positional :
    parse_permissions "w---".data ≠
      parse_permissions_positional "w---".data ∧
    (parse_permissions "w---".data).writeable = true ∧
    (parse_permissions_positional "w---".data).writeable = false := by
  decide

/-- C5 amended: the permission loop matches characters by value anywhere in
the field — each of the four booleans is true exactly when its letter
occurs in the string, any other character being ignored, never rejected;
consequently, for every subset of r, w, x, s rendered in fixed order with
`-` for absent letters, the parsed booleans are true exactly for the
letters present. -/
theorem permissions_letters_present (t : List Char) (r w x s : Bool) :
    ((parse_permissions t).readable = true ↔ 'r' ∈ t) ∧
    ((parse_permissions t).writeable = true ↔ 'w' ∈ t) ∧
    ((parse_permissions t).executable = true ↔ 'x' ∈ t) ∧
    ((parse_permissions t).shared = true ↔ 's' ∈ t) ∧
    parse_permissions (render_permissions r w x s) = ⟨r, w, x, s⟩ := by
  refine ⟨?_, ?_, ?_, ?_, ?_⟩
  · rw [parse_permissions, parse_permissions_loop_eq]; simp
  · rw [parse_permissions, parse_permissions_loop_eq]; simp
  · rw [parse_permissions, parse_permissions_loop_eq]; simp
  · rw [parse_permissions, parse_permissions_loop_eq]; simp
  · cases r <;> cases w <;> cases x <;> cases s <;> decide

/-- The spec's example maps line, terminated by the newline `read_until`
keeps in the buffer. -/
def example_maps_line : List Char :=
  "08048000-08049000 r-xp 00000000 03:0c 64593 /bin/cat\n".data

/-- C6: on the spec's example line the scan does produce the hex start and
end addresses, the permission field, offset 0, inode 64593 and the path,
and reads `03` as decimal 3 — but `dev_minor` is converted with `u8`'s
decimal `FromStr`, which fails on `0c`, so the field is `None` and
`parse_maps` panics on its `unwrap()` instead of yielding a region with
`dev_minor = 12`: the dev fields are not interpreted as hexadecimal. -/
theorem example_line_dev_fields_not_hex :
    (scan_maps_line example_maps_line).start = some 0x08048000 ∧
    (scan_maps_line example_maps_line).end_ = some 0x08049000 ∧
    (scan_maps_line example_maps_line).perms = some "r-xp".data ∧
    (scan_maps_line example_maps_line).offset = some 0 ∧
    (scan_maps_line example_maps_line).dev_major = some 3 ∧
    (scan_maps_line example_maps_line).dev_minor = none ∧
    (scan_maps_line example_maps_line).inode = some 64593 ∧
    (scan_maps_line example_maps_line).path = some "/bin/cat".data ∧
    parse_maps_lines [example_maps_line] = .panicked := by
  refine ⟨rfl, rfl, rfl, rfl, rfl, rfl, rfl, rfl, rfl⟩

/-- Skipping a block of regions none of which contains the address leaves
the `get_address_region` loop unchanged. -/
theorem get_address_region_loop_skip (a : Nat) (pre rest : List MemoryRegion)
    (hpre : ∀ r ∈ pre, ¬(a ≥ r.start ∧ a ≤ r.end_)) :
    get_address_region_loop a (pre ++ rest) =
      get_address_region_loop a rest := by
  induction pre with
  | nil => rfl
  | cons r0 pre ih =>
    have hr0 := hpre r0 (List.mem_cons_self r0 pre)
    simp only [List.cons_append, get_address_region_loop, if_neg hr0]
    exact ih fun r hr => hpre r (List.mem_cons_of_mem r0 hr)

/-- C7: `get_address_region` returns the first region with
`start ≤ address ≤ end`, the upper bound inclusive; when no region
contains the address it fails with the region-not-found error, and when no
parse has succeeded it fails with the not-mapped error. -/
theorem get_address_region_first_inclusive
    (pre post regions : List MemoryRegion) (r : MemoryRegion) (a b : Nat)
    (hpre : ∀ r' ∈ pre, ¬(a ≥ r'.start ∧ a ≤ r'.end_))
    (hr : a ≥ r.start ∧ a ≤ r.end_)
    (hb : ∀ r' ∈ regions, ¬(b ≥ r'.start ∧ b ≤ r'.end_)) :
    get_address_region (some (pre ++ r :: post)) a = .ok r ∧
    get_address_region (some regions) b =
      .error (.addressRegionNotFound b) ∧
    get_address_region none a = .error .regionsNotMapped := by
  refine ⟨?_, ?_, rfl⟩
  · show get_address_region_loop a (pre ++ r :: post) = .ok r
    rw [get_address_region_loop_skip a pre (r :: post) hpre]
    simp only [get_address_region_loop, if_pos hr]
  · show get_address_region_loop b regions = .error (.addressRegionNotFound b)
    have h := get_address_region_loop_skip b regions [] hb
    rw [List.append_nil] at h
    rw [h]
    rfl

/-- Witness for C7: for the single region `[0x1000, 0x2000]`, address
`0x2000` is found (inclusive upper bound), address `0x2001` is the
not-found error, and the unparsed state is the not-mapped error. -/
theorem get_address_region_first_inclusive_witness :
    get_address_region (some [⟨0x1000, 0x2000, rxp, 0, 3, 1, 7, none⟩])
      0x2000 = .ok ⟨0x1000, 0x2000, rxp, 0, 3, 1, 7, none⟩ ∧
    get_address_region (some [⟨0x1000, 0x2000, rxp, 0, 3, 1, 7, none⟩])
      0x2001 = .error (.addressRegionNotFound 0x2001) ∧
    get_address_region none 0x2000 = .error .regionsNotMapped := by
  have h := get_address_region_first_inclusive [] []
    [⟨0x1000, 0x2000, rxp, 0, 3, 1, 7, none⟩]
    ⟨0x1000, 0x2000, rxp, 0, 3, 1, 7, none⟩ 0x2000 0x2001
    (by intro r hr; cases hr) (by decide) (by decide)
  simpa using h

/-- If `rfind` finds no occurrence, the character is not in the list. -/
theorem rfind_eq_none_not_mem (l : List Char) (c : Char)
    (h : rfind l c = none) : c ∉ l := by
  induction l with
  | nil => simp
  | cons a as ih =>
    simp only [rfind] at h
    cases hr : rfind as c with
    | some i => rw [hr] at h; cases h
    | none =>
      rw [hr] at h
      by_cases hac : a = c
      · rw [if_pos hac] at h; cases h
      · intro hmem
        rcases List.mem_cons.mp hmem with h1 | h2
        · exact hac h1.symm
        · exact ih hr h2

/-- Function `rfind` returns the last occurrence: nothing after it is the character. -/
theorem rfind_not_mem_drop (l : List Char) (c : Char) (i : Nat)
    (h : rfind l c = some i) : c ∉ l.drop (i + 1) := by
  induction l generalizing i with
  | nil => simp [rfind] at h
  | cons a as ih =>
    simp only [rfind] at h
    cases hr : rfind as c with
    | some j =>
      rw [hr] at h
      have hij : j + 1 = i := by injection h
      subst hij
      simpa using ih j hr
    | none =>
      rw [hr] at h
      by_cases hac : a = c
      · rw [if_pos hac] at h
        have h0 : (0 : Nat) = i := by injection h
        subst h0
        simpa using rfind_eq_none_not_mem as c hr
      · rw [if_neg hac] at h; cases h

/-- C8 counterexample: for the file-backed path `"/bin"` the final `'/'` is
at index 0, `index_to_split` stays 0 and no character is skipped, so the
computed basename is the whole string `"/bin"` — it still contains `'/'`
and is not the substring strictly after the final separator. -/
theorem basename_keeps_root_slash :
    region_basename (some "/bin".data) = "/bin".data ∧
    '/' ∈ region_basename (some "/bin".data) ∧
    region_basename (some "/bin".data) ≠ "bin".data := by
  decide

/-- C8 amended: when the final `'/'` of `path` sits at an index `i > 0`,
the computed basename is the substring strictly after it and contains no
`'/'`; when `path` is absent it is the sentinel `"[anonymous_region]"`.
When the only `'/'` is at index 0 the whole path, leading slash included,
is returned instead. -/
theorem basename_after_final_separator (p : List Char) (i : Nat)
    (hfind : rfind p '/' = some i) (hpos : 0 < i) :
    region_basename (some p) = p.drop (i + 1) ∧
    '/' ∉ region_basename (some p) ∧
    region_basename none = anonymous_region := by
  have hb : region_basename (some p) = p.drop (i + 1) := by
    unfold region_basename
    simp only [Option.getD_some, hfind, if_pos hpos]
  refine ⟨hb, ?_, rfl⟩
  rw [hb]
  exact rfind_not_mem_drop p '/' i hfind

/-- Witness for C8: for `"/bin/cat"` the final separator is at index 4 and
the basename is `"cat"`, free of separators. -/
theorem basename_after_final_separator_witness :
    region_basename (some "/bin/cat".data) = "/bin/cat".data.drop 5 ∧
    '/' ∉ region_basename (some "/bin/cat".data) ∧
    region_basename none = anonymous_region := by
  exact basename_after_final_separator "/bin/cat".data 4 (by decide) (by decide)

/-- C9 counterexample: an entry whose `comm` file fails to read makes the
whole lookup fail — the `?` operator propagates the error — even though the
next entry matches the queried name; the entry is not skipped. -/
theorem comm_read_failure_is_fatal :
    process_new
      [some ⟨.ok "1".data, .error "EACCES".data⟩,
       some ⟨.ok "2".data, .ok "cat\n".data⟩] "cat".data =
      .error (.ioPropagated "EACCES".data) := by
  rfl

/-- C9 amended: during lookup, only a process-table entry whose directory
item itself fails to yield is skipped silently (dropped by
`filter_map(ok)`); a numeric entry whose per-process name resource fails to
read aborts the whole lookup, propagating that read error. -/
theorem lookup_skips_only_direntry_failures (rest : List (Option ProcEntry))
    (name fname e : List Char)
    (hnum : fname.all char_is_numeric = true) :
    process_new (none :: rest) name = process_new rest name ∧
    process_new (some ⟨.ok fname, .error e⟩ :: rest) name =
      .error (.ioPropagated e) := by
  refine ⟨rfl, ?_⟩
  simp only [process_new, if_pos hnum]

/-- Witness for C9: the failed directory item before pid 2 is skipped and
the lookup still matches, while a numeric entry with an unreadable `comm`
aborts with the propagated error. -/
theorem lookup_skips_only_direntry_failures_witness :
    process_new [none, some ⟨.ok "2".data, .ok "cat\n".data⟩] "cat".data =
      process_new [some ⟨.ok "2".data, .ok "cat\n".data⟩] "cat".data ∧
    process_new [some ⟨.ok "7".data, .error "EIO".data⟩] "cat".data =
      .error (.ioPropagated "EIO".data) := by
  exact lookup_skips_only_direntry_failures
    [some ⟨.ok "2".data, .ok "cat\n".data⟩] "cat".data "7".data "EIO".data
    (by decide)

/-- Every string is its trailing-whitespace-trimmed prefix followed by a
whitespace-only suffix. -/
theorem trim_end_decomposition (s : List Char) :
    s = trim_end s ++ (s.reverse.takeWhile Char.isWhitespace).reverse ∧
    ∀ c ∈ (s.reverse.takeWhile Char.isWhitespace).reverse,
      c.isWhitespace := by
  constructor
  · conv_lhs => rw [← s.reverse_reverse,
      ← List.takeWhile_append_dropWhile (p := Char.isWhitespace)
        (l := s.reverse)]
    rw [List.reverse_append]
    rfl
  · intro c hc
    rw [List.mem_reverse] at hc
    exact List.mem_takeWhile_imp hc

/-- C10: a successful lookup stores the raw, untrimmed contents of the
matched entry's name resource: `get_name` returns exactly what the `comm`
read produced, trailing-whitespace trimming is applied only for the
equality comparison — `trim_end (get_name p)` equals the queried name, and
`get_name p` is that name followed by a whitespace-only (typically
newline) suffix, hence in general not string-equal to it. -/
theorem get_name_returns_raw_comm (entries : List (Option ProcEntry))
    (name : List Char) (p : Process)
    (h : process_new entries name = .ok p) :
    trim_end (get_name p) = name ∧
    (∃ pe ∈ entries, ∃ entry : ProcEntry,
      pe = some entry ∧ entry.comm = .ok (get_name p)) ∧
    ∃ ws, get_name p = name ++ ws ∧ ∀ c ∈ ws, c.isWhitespace := by
  induction entries with
  | nil => cases h
  | cons pe0 rest ih =>
    cases pe0 with
    | none =>
      rw [process_new] at h
      obtain ⟨h1, ⟨pe, hpe, hrest⟩, h3⟩ := ih h
      exact ⟨h1, ⟨pe, List.mem_cons_of_mem none hpe, hrest⟩, h3⟩
    | some entry =>
      rw [process_new] at h
      cases hf : entry.file_name with
      | error u => rw [hf] at h; cases h
      | ok fname =>
        rw [hf] at h
        dsimp only at h
        by_cases hnum : fname.all char_is_numeric
        · rw [if_pos hnum] at h
          cases hc : entry.comm with
          | error e => rw [hc] at h; cases h
          | ok true_name =>
            rw [hc] at h
            dsimp only at h
            by_cases htrim : trim_end true_name = name
            · rw [if_pos htrim] at h
              have hp : p = { pid := (parse_digits decDigit 10 fname).getD 0
                              name := true_name
                              memory_regions := none } := by
                cases h; rfl
              have hname : get_name p = true_name := by rw [hp]; rfl
              refine ⟨?_, ?_, ?_⟩
              · rw [hname]; exact htrim
              · exact ⟨some entry, List.mem_cons_self _ _,
                  entry, rfl, by rw [hname]; exact hc⟩
              · obtain ⟨hdec, hws⟩ := trim_end_decomposition true_name
                refine ⟨(true_name.reverse.takeWhile Char.isWhitespace).reverse,
                  ?_, hws⟩
                rw [hname, ← htrim]
                exact hdec
            · rw [if_neg htrim] at h
              obtain ⟨h1, ⟨pe, hpe, hrest⟩, h3⟩ := ih h
              exact ⟨h1, ⟨pe, List.mem_cons_of_mem _ hpe, hrest⟩, h3⟩
        · rw [if_neg hnum] at h
          obtain ⟨h1, ⟨pe, hpe, hrest⟩, h3⟩ := ih h
          exact ⟨h1, ⟨pe, List.mem_cons_of_mem _ hpe, hrest⟩, h3⟩

/-- Witness for C10: looking up `"cat"` against an entry whose `comm`
content is `"cat\n"` stores `"cat\n"` verbatim, so `get_name` is the query
plus the newline and differs from the query string itself. -/
theorem get_name_returns_raw_comm_witness :
    (trim_end (get_name ⟨2, "cat\n".data, none⟩) = "cat".data ∧
      (∃ pe ∈ [some (⟨.ok "2".data, .ok "cat\n".data⟩ : ProcEntry)],
        ∃ entry : ProcEntry, pe = some entry ∧
          entry.comm = .ok (get_name ⟨2, "cat\n".data, none⟩)) ∧
      ∃ ws, get_name ⟨2, "cat\n".data, none⟩ = "cat".data ++ ws ∧
        ∀ c ∈ ws, c.isWhitespace) ∧
    get_name ⟨2, "cat\n".data, none⟩ ≠ "cat".data := by
  constructor
  · exact get_name_returns_raw_comm
      [some ⟨.ok "2".data, .ok "cat\n".data⟩] "cat".data
      ⟨2, "cat\n".data, none⟩ rfl
  · decide

end Trickster
